import Mathlib

/-!
# Verification of the YAMDBF localization engine (`src/localization/Lang.ts`)

This file gives a shallow embedding of the localization module `Lang` (the
current version of `src/localization/Lang.ts`, whose public surface is
`createInstance`, `loadLocalizationsFrom`, `loadCommandLocalizationsFrom`,
`loadGroupLocalizationsFrom`, `getCommandInfo`, `getGroupInfo` and `res`) and
proves or refutes the specified properties of that module.

Modelling conventions:
* JavaScript objects used as string-keyed maps are embedded as insertion-ordered
  association lists `List (String × α)`; property reads take the first binding
  (`jsGet`), property writes overwrite in place or append (`jsSet`), and object
  spread `{...a, ...b}` is `jsSpread`.
* The dynamic evaluation `new Function('args', 'res', body)(data, res)` inside
  `Lang.res` is embedded through an oracle mapping the function-body text to its
  JavaScript outcome (syntax error at construction, runtime error at the call,
  or a returned value with `none` standing for `undefined`).  The oracle is a
  parameter of `res`; scripts are assumed deterministic in the body text.
* Thrown exceptions are embedded as `Except String`.
* The classes `Language`, `LangFileParser` and `Util` are referenced by
  `Lang.ts` but their sources are not part of the given files; those few
  definitions are modelled from the spec and marked as such.
-/

namespace Yamdbf

/-- Read of a property of a JavaScript object embedded as an insertion-ordered
association list: the first binding for the key, `none` for `undefined`. -/
def jsGet {α : Type} (m : List (String × α)) (k : String) : Option α :=
  (m.find? (fun p => p.1 == k)).map (fun p => p.2)

/-- JavaScript property assignment `m[k] = v`: overwrite the binding in place
when the key is present, append a new binding otherwise. -/
def jsSet {α : Type} (m : List (String × α)) (k : String) (v : α) :
    List (String × α) :=
  if (m.find? (fun p => p.1 == k)).isSome then
    m.map (fun p => if p.1 == k then (k, v) else p)
  else m ++ [(k, v)]

/-- JavaScript object spread `{...a, ...b}`: every binding of `b` assigned on
top of `a`, later bindings overriding earlier ones. -/
def jsSpread {α : Type} (a b : List (String × α)) : List (String × α) :=
  b.foldl (fun acc p => jsSet acc p.1 p.2) a

/-- Modelled from the spec: the `Language` class (`localization/Language.ts` is
not among the given sources).  A language holds its identifier and its table of
string key → raw template text. -/
structure Language where
  name : String
  strings : List (String × String)
deriving DecidableEq

/-- Modelled from the spec: `Language.concat` merges another parsed fragment's
strings into this language's table; key collisions resolve to the most recently
merged value ("last-file-wins per key"). -/
def Language.concat (self other : Language) : Language :=
  { self with strings := jsSpread self.strings other.strings }

/-- Localized command help record loaded from a `*.lang.json` file; any of the
fields may be absent in the JSON payload. -/
structure LocalizedCommandInfo where
  desc : Option String
  info : Option String
  usage : Option String
deriving DecidableEq

/-- The fields of a `Command` object consulted by `Lang.getCommandInfo`. -/
structure CommandData where
  name : String
  desc : String
  info : String
  usage : String
deriving DecidableEq

/-- The `{desc, info, usage}` triple returned by `Lang.getCommandInfo`. -/
structure CmdInfoTriple where
  desc : String
  info : String
  usage : String
deriving DecidableEq

/-- The `Lang._commandInfo` store: command name → language → localized info. -/
abbrev CommandInfoTable := List (String × List (String × LocalizedCommandInfo))

/-- The `Lang._groupInfo` store: group name → language → description. -/
abbrev GroupInfoTable := List (String × List (String × String))

/-- Modelled from the spec: `Util.getNestedValue` (`util/Util.ts` is not among
the given sources) on a two-element path over a two-level string-keyed map;
an absent outer or inner key yields `undefined` (here `none`). -/
def getNested2 {α : Type} (m : List (String × List (String × α)))
    (k1 k2 : String) : Option α :=
  match jsGet m k1 with
  | none => none
  | some inner => jsGet inner k2

/-- Modelled from the spec: `Util.assignNestedValue` on a two-element path;
creates the intermediate object when absent, then assigns the inner key. -/
def assignNested2 {α : Type} (m : List (String × List (String × α)))
    (k1 k2 : String) (v : α) : List (String × List (String × α)) :=
  match jsGet m k1 with
  | some inner => jsSet m k1 (jsSet inner k2 v)
  | none => jsSet m k1 (jsSet [] k2 v)

/-- JavaScript `x || d` for a possibly-absent string `x`: the default is taken
when `x` is `undefined` or the empty string (both falsy). -/
def jsOr (v : Option String) (d : String) : String :=
  match v with
  | none => d
  | some s => if s == "" then d else s

/-- `Lang.getCommandInfo` (Lang.ts lines 495-509), for a valid `Command` and a
created singleton (the guard throws are preconditions of the embedding):
each field is `Util.getNestedValue(commandInfo, [name, lang, field]) || default`. -/
def getCommandInfo (ci : CommandInfoTable) (cmd : CommandData) (lang : String) :
    CmdInfoTriple :=
  let entry : Option LocalizedCommandInfo := getNested2 ci cmd.name lang
  { desc := jsOr (entry.bind (fun e => e.desc)) cmd.desc
  , info := jsOr (entry.bind (fun e => e.info)) cmd.info
  , usage := jsOr (entry.bind (fun e => e.usage)) cmd.usage }

/-- The claim's reading of `getCommandInfo`: per field, the localized value when
present and non-empty, otherwise the command's own compiled-in default. -/
def specCommandInfo (ci : CommandInfoTable) (cmd : CommandData) (lang : String) :
    CmdInfoTriple :=
  let pick : Option String → String → String := fun v d =>
    match v with
    | some s => if s ≠ "" then s else d
    | none => d
  let entry : Option LocalizedCommandInfo := getNested2 ci cmd.name lang
  { desc := pick (entry.bind (fun e => e.desc)) cmd.desc
  , info := pick (entry.bind (fun e => e.info)) cmd.info
  , usage := pick (entry.bind (fun e => e.usage)) cmd.usage }

/-! ## The singleton life cycle (constructor, `createInstance`) -/

/-- The state held by the `Lang` singleton instance; the client is reduced to
an opaque handle. -/
structure LangInstance where
  clientId : Nat
  commandInfo : CommandInfoTable
  groupInfo : GroupInfoTable
  langs : List (String × Language)
  meta : List (String × List (String × String))
deriving DecidableEq

/-- The fresh state built by the private constructor body (Lang.ts 206-210). -/
def LangInstance.fresh (clientId : Nat) : LangInstance :=
  { clientId := clientId, commandInfo := [], groupInfo := [], langs := [], meta := [] }

/-- The private `Lang` constructor (Lang.ts 201-211): throws when an instance
already exists, otherwise produces the fresh instance state. -/
def langConstructor (current : Option LangInstance) (clientId : Nat) :
    Except String LangInstance :=
  match current with
  | some _ => .error
      "Cannot create multiple instances of Lang singleton. Use Lang.createInstance() instead"
  | none => .ok (LangInstance.fresh clientId)

/-- `Lang.createInstance` (Lang.ts 256-259):
`if (!Lang._instance) Lang._instance = new Lang(client)` — constructs only when
no instance exists and otherwise does nothing at all. -/
def createInstance (current : Option LangInstance) (clientId : Nat) :
    Except String (Option LangInstance) :=
  match current with
  | none =>
    match langConstructor none clientId with
    | .ok i => .ok (some i)
    | .error e => .error e
  | some i => .ok (some i)

/-! ## Loading string localizations (`loadLocalizationsFrom`) -/

/-- One merge step of the inner loop of `Lang.loadLocalizationsFrom`
(Lang.ts 360-363): concat onto the existing language entry when present,
otherwise store the parsed file as the language's entry. -/
def mergeParsedLanguage (langs : List (String × Language)) (langName : String)
    (parsed : Language) : List (String × Language) :=
  match jsGet langs langName with
  | some existing => jsSet langs langName (existing.concat parsed)
  | none => jsSet langs langName parsed

/-- The per-language file loop of `Lang.loadLocalizationsFrom` (Lang.ts
349-364): the parsed fragments of one language's files, in discovery order,
merged into the language store.  Directory walking, file reading and
`LangFileParser.parseFile` are external; their outputs are the inputs here. -/
def loadParsedLanguageFiles (langs : List (String × Language)) (langName : String)
    (parsedFiles : List Language) : List (String × Language) :=
  parsedFiles.foldl (fun acc p => mergeParsedLanguage acc langName p) langs

/-! ## Loading command help and group localizations -/

/-- A discovered `*.lang.json` file together with the outcome of `require`-ing
it: either its decoded payload or a parse error. -/
structure CommandLocFile where
  name : String
  parsed : Except String (List (String × List (String × LocalizedCommandInfo)))

/-- The reserved-file test `/commandgroups\.lang\.json$/.test(file)`. -/
def isGroupsFile (name : String) : Bool :=
  List.isSuffixOf "commandgroups.lang.json".data name.data

/-- Spread of two localized-info records, `{...a, ...b}`: fields present in `b`
override those of `a`. -/
def lciSpread (a b : LocalizedCommandInfo) : LocalizedCommandInfo :=
  { desc := match b.desc with | some v => some v | none => a.desc
  , info := match b.info with | some v => some v | none => a.info
  , usage := match b.usage with | some v => some v | none => a.usage }

/-- The merge of one parsed command-localization payload into the store
(Lang.ts 416-426): ensure a nested entry exists, then spread the new record
over the existing one. -/
def mergeCommandPayload (ci : CommandInfoTable)
    (payload : List (String × List (String × LocalizedCommandInfo))) :
    CommandInfoTable :=
  payload.foldl (fun acc cp =>
    cp.2.foldl (fun acc2 lp =>
      let existing : LocalizedCommandInfo :=
        match getNested2 acc2 cp.1 lp.1 with
        | some e => e
        | none => { desc := none, info := none, usage := none }
      assignNested2 acc2 cp.1 lp.1 (lciSpread existing lp.2)) acc) ci

/-- `Lang.loadCommandLocalizationsFrom` (Lang.ts 400-430) over the discovered
files in enumeration order: the reserved `commandgroups.lang.json` is ignored,
a file whose `require` throws is skipped (`try/catch { continue }`), every
other file's payload is merged into the store.  An empty discovery is a no-op. -/
def loadCommandLocalizationsFrom (ci : CommandInfoTable)
    (files : List CommandLocFile) : CommandInfoTable :=
  files.foldl (fun acc f =>
    if isGroupsFile f.name then acc
    else
      match f.parsed with
      | .error _ => acc
      | .ok payload => mergeCommandPayload acc payload) ci

/-- A discovered file for group descriptions with its `require` outcome. -/
structure GroupLocFile where
  name : String
  parsed : Except String GroupInfoTable

/-- `Lang.loadGroupLocalizationsFrom` (Lang.ts 441-458): only the first
discovered `commandgroups.lang.json` is considered; absence is a no-op, but a
`require` failure of that file is rethrown wrapped (Lang.ts 450), aborting the
call.  On success every group/lang pair is assigned into the store. -/
def loadGroupLocalizationsFrom (gi : GroupInfoTable) (files : List GroupLocFile) :
    Except String GroupInfoTable :=
  match files.find? (fun f => isGroupsFile f.name) with
  | none => .ok gi
  | some f =>
    match f.parsed with
    | .error e => .error ("Failed to load group localizations from: " ++ f.name ++ "\n" ++ e)
    | .ok payload =>
      .ok (payload.foldl (fun acc gp =>
        gp.2.foldl (fun acc2 lp => assignNested2 acc2 gp.1 lp.1 lp.2) acc) gi)

/-! ## The template resolver `Lang.res` (Lang.ts 535-593)

The regular expressions of `res` are embedded as explicit character scanners
over `List Char`.  The scanners that skip a whole match per step take a fuel
argument initialized to the input length; every step consumes at least one
character, so the fuel never runs out on the initial call. -/

/-- The `[\t ]` character class. -/
def isTabOrSpace (c : Char) : Bool := c == '\t' || c == ' '

/-- The `[a-zA-Z]` character class. -/
def isAsciiLetter (c : Char) : Bool :=
  ('a' ≤ c && c ≤ 'z') || ('A' ≤ c && c ≤ 'Z')

/-- The JavaScript `[\s]` whitespace class, restricted to the whitespace
characters that occur in templates. -/
def isJsWhitespace (c : Char) : Bool :=
  c == ' ' || c == '\t' || c == '\n' || c == '\r'

/-- Head match of the token pattern `{{ *tok *\??}}` built by `res` for a data
key `tok` (Lang.ts 553); returns the text after the match.  The embedding
assumes token names made of regex-neutral characters (as all observed data keys
are), for which the greedy match is this deterministic scan. -/
def matchTokenAt (tok : List Char) (s : List Char) : Option (List Char) :=
  match s with
  | '{' :: '{' :: r0 =>
    let r1 := r0.dropWhile (fun c => c == ' ')
    if tok.isPrefixOf r1 then
      match (r1.drop tok.length).dropWhile (fun c => c == ' ') with
      | '?' :: '}' :: '}' :: r3 => some r3
      | '}' :: '}' :: r3 => some r3
      | _ => none
    else none
  | _ => none

/-- Head match of the skip-test pattern `{{ *tok *\?}}` (the `?` required,
Lang.ts 549). -/
def matchMaybeTokenAt (tok : List Char) (s : List Char) : Option (List Char) :=
  match s with
  | '{' :: '{' :: r0 =>
    let r1 := r0.dropWhile (fun c => c == ' ')
    if tok.isPrefixOf r1 then
      match (r1.drop tok.length).dropWhile (fun c => c == ' ') with
      | '?' :: '}' :: '}' :: r3 => some r3
      | _ => none
    else none
  | _ => none

/-- `new RegExp("{{ *tok *\\?}}", 'g').test(s)`: some position of `s` matches
the optional-token pattern for `tok`. -/
def containsMaybeToken (tok : List Char) : List Char → Bool
  | [] => false
  | c :: cs => (matchMaybeTokenAt tok (c :: cs)).isSome || containsMaybeToken tok cs

/-- The global replacement `s.replace(new RegExp("{{ *tok *\\??}}", 'g'), () => repl)`
(Lang.ts 552-553); the function replacement form inserts `repl` literally. -/
def replaceTokenFuel (tok repl : List Char) : Nat → List Char → List Char
  | _, [] => []
  | 0, s => s
  | fuel + 1, c :: cs =>
    match matchTokenAt tok (c :: cs) with
    | some rest => repl ++ replaceTokenFuel tok repl fuel rest
    | none => c :: replaceTokenFuel tok repl fuel cs

/-- Entry point of the token replacement scan. -/
def replaceToken (tok repl s : List Char) : List Char :=
  replaceTokenFuel tok repl s.length s

/-- The token-substitution loop of `res` (Lang.ts 546-554): for each data key
in insertion order, skip the key entirely when its optional marker occurs in
the current string and its value is empty, otherwise replace every occurrence
of its (optional or plain) token with the value. -/
def substituteTokens (data : List (String × String)) (s : List Char) : List Char :=
  data.foldl (fun acc p =>
    if containsMaybeToken p.1.data acc && p.2 == "" then acc
    else replaceToken p.1.data p.2.data acc) s

/-- Head match of the first `maybeTemplates` alternative
`^{{ *[a-zA-Z]+ *\?}}` (any letter token, `?` required; Lang.ts 538). -/
def matchAnyMaybeAt (s : List Char) : Option (List Char) :=
  match s with
  | '{' :: '{' :: r0 =>
    let r1 := r0.dropWhile (fun c => c == ' ')
    let letters := r1.takeWhile isAsciiLetter
    if letters.isEmpty then none
    else
      match (r1.drop letters.length).dropWhile (fun c => c == ' ') with
      | '?' :: '}' :: '}' :: r3 => some r3
      | _ => none
  | _ => none

/-- Head match of the line-start alternative
`^{{ *[a-zA-Z]+ *\?}}[\t ]*\n` of `maybeTemplates`. -/
def matchAnyMaybeLineAt (s : List Char) : Option (List Char) :=
  match matchAnyMaybeAt s with
  | none => none
  | some r3 =>
    match r3.dropWhile isTabOrSpace with
    | '\n' :: r4 => some r4
    | _ => none

/-- The cleanup pass `s.replace(maybeTemplates, '')` (Lang.ts 591) with the
`gm` flags: at a line-start position the whole-line alternative is preferred,
otherwise the bare marker alone is removed. -/
def stripMaybesFuel : Nat → Bool → List Char → List Char
  | _, _, [] => []
  | 0, _, s => s
  | fuel + 1, atStart, c :: cs =>
    match (if atStart then matchAnyMaybeLineAt (c :: cs) else none) with
    | some rest => stripMaybesFuel fuel true rest
    | none =>
      match matchAnyMaybeAt (c :: cs) with
      | some rest => stripMaybesFuel fuel false rest
      | none => c :: stripMaybesFuel fuel (c == '\n') cs

/-- Entry point of the cleanup pass; position 0 is a line start. -/
def stripMaybes (s : List Char) : List Char :=
  stripMaybesFuel s.length true s

/-- The escape pass `s.replace(/\\n/g, '\n')` (Lang.ts 592). -/
def unescapeNewlines : List Char → List Char
  | [] => []
  | '\\' :: 'n' :: cs => '\n' :: unescapeNewlines cs
  | c :: cs => c :: unescapeNewlines cs

/-- Backtracking of the greedy `([\s\S]+)` before `!}}`: the rightmost split
`t = body ++ "!}}" ++ suf` whose remainder `suf` satisfies `ok`. -/
def splitLastMarker (ok : List Char → Bool) : List Char → Option (List Char × List Char)
  | [] => none
  | c :: cs =>
    match splitLastMarker ok cs with
    | some (pre, suf) => some (c :: pre, suf)
    | none =>
      match c, cs with
      | '!', '}' :: '}' :: suf => if ok suf then some ([], suf) else none
      | _, _ => none

/-- Continuation test of the first `scriptTemplate` alternative: after `!}}`
comes `[\t ]*` and then a newline. -/
def wsThenNewline (suf : List Char) : Bool :=
  match suf.dropWhile isTabOrSpace with
  | '\n' :: _ => true
  | _ => false

/-- Head match of `scriptTemplate`
`/^{{!([\s\S]+)!}}[\t ]*\n|{{!([\s\S]+)!}}/m` (Lang.ts 539): the line-start
alternative (consuming the trailing whitespace and newline) is tried first when
the position is a line start, then the bare alternative; the greedy body
extends to the last acceptable `!}}`.  Returns (matched text, captured body,
rest). -/
def matchScriptAt (atStart : Bool) (s : List Char) :
    Option (List Char × List Char × List Char) :=
  match s with
  | '{' :: '{' :: '!' :: t =>
    let alt1 : Option (List Char × List Char × List Char) :=
      if atStart then
        match splitLastMarker wsThenNewline t with
        | some (body, suf) =>
          if body.isEmpty then none
          else
            let ws := suf.takeWhile isTabOrSpace
            match suf.dropWhile isTabOrSpace with
            | '\n' :: rest =>
              some (['{', '{', '!'] ++ body ++ ['!', '}', '}'] ++ ws ++ ['\n'],
                    body, rest)
            | _ => none
        | none => none
      else none
    match alt1 with
    | some r => some r
    | none =>
      match splitLastMarker (fun _ => true) t with
      | some (body, suf) =>
        if body.isEmpty then none
        else some (['{', '{', '!'] ++ body ++ ['!', '}', '}'], body, suf)
      | none => none
  | _ => none

/-- `loadedString.match(scriptTemplates)` with the `gm` flags (Lang.ts 556,
563): the successive non-overlapping matches of `scriptTemplate`, scanning left
to right; a position right after a newline is a line start. -/
def scriptMatchesFuel : Nat → Bool → List Char → List (List Char)
  | _, _, [] => []
  | 0, _, _ => []
  | fuel + 1, atStart, c :: cs =>
    match matchScriptAt atStart (c :: cs) with
    | some (dat, _, rest) =>
      dat :: scriptMatchesFuel fuel (dat.getLast? == some '\n') rest
    | none => scriptMatchesFuel fuel (c == '\n') cs

/-- Entry point of the global script-template scan. -/
def scriptMatches (s : List Char) : List (List Char) :=
  scriptMatchesFuel s.length true s

/-- The body extraction
`scriptData.match(scriptTemplate)[1] || scriptData.match(scriptTemplate)[2]`
(Lang.ts 565-566): the captured group of the first alternative that matches at
position 0 of the matched text (every produced match starts with `{{!`, a line
start of its own string).  The `none` case cannot arise for strings produced by
`scriptMatches`. -/
def extractFunctionBody (dat : List Char) : List Char :=
  match matchScriptAt true dat with
  | some (_, body, _) => body
  | none => []

/-- The own-line test `/^{{!([\s\S]+)!}}[\t ]*\n/.test(scriptData)`
(Lang.ts 584, no `m` flag: `^` is the string start, which every match text
satisfies). -/
def ownLineTest (dat : List Char) : Bool :=
  match dat with
  | '{' :: '{' :: '!' :: t =>
    match splitLastMarker wsThenNewline t with
    | some (body, _) => !body.isEmpty
    | none => false
  | _ => false

/-- The JavaScript outcome of `new Function('args', 'res', body)(data, res)`. -/
inductive FunctionOutcome where
  /-- `new Function` itself throws (invalid function-body syntax). -/
  | syntaxError (msg : String)
  /-- The constructed function throws when called. -/
  | runtimeError (msg : String)
  /-- The call returns; `none` models `undefined`. -/
  | returns (v : Option String)
deriving DecidableEq

/-- Oracle for the dynamic evaluation embedded in templates, keyed by the
function-body text (the data bag and the recursive resolver are fixed by the
enclosing call and closed over by the oracle). -/
abbrev ScriptOracle := String → FunctionOutcome

/-- One script-block evaluation of `res` (Lang.ts 568-582): the first
construction happens outside any `try`, so its syntax error propagates
unwrapped; a throw of the first call is wrapped with the language and key; when
the first call returns `undefined`, the body is retried with a prepended
`return ` after stripping leading whitespace (`/^[\s]+/`), and any throw of
that retry is swallowed by the empty `catch`, leaving the result `undefined`. -/
def evalScriptBlock (o : ScriptOracle) (lang key : String) (body : List Char) :
    Except String (Option String) :=
  match o (String.mk body) with
  | .syntaxError m => .error m
  | .runtimeError m =>
    .error ("in embedded localization script for: " ++ lang ++ "::" ++ key ++ "\n" ++ m)
  | .returns (some v) => .ok (some v)
  | .returns none =>
    match o ("return " ++ String.mk (body.dropWhile isJsWhitespace)) with
    | .returns v => .ok v
    | _ => .ok none

/-- `String(x)` as applied by `replace` to a replacement-function result and by
the template literal `` `${result}\n` ``: `undefined` prints as "undefined". -/
def toStringJS : Option String → String
  | none => "undefined"
  | some v => v

/-- `s.replace(pat, () => repl)` with a string pattern: the first literal
occurrence of `pat` is replaced by `repl` (inserted literally). -/
def replaceFirstList (pat repl : List Char) : List Char → List Char
  | [] => []
  | c :: cs =>
    if pat.isPrefixOf (c :: cs) then repl ++ (c :: cs).drop pat.length
    else c :: replaceFirstList pat repl cs

/-- The script loop of `res` (Lang.ts 563-587): the match list is computed once
from the substituted string, then each matched text is evaluated and its first
occurrence in the evolving string is replaced; a block matched in own-line form
with a result other than the empty string gets one trailing newline. -/
def runScripts (o : ScriptOracle) (lang key : String) :
    List (List Char) → List Char → Except String (List Char)
  | [], s => .ok s
  | dat :: rest, s =>
    match evalScriptBlock o lang key (extractFunctionBody dat) with
    | .error e => .error e
    | .ok result =>
      let repl : List Char :=
        if ownLineTest dat && result != some "" then
          (toStringJS result).data ++ ['\n']
        else (toStringJS result).data
      runScripts o lang key rest (replaceFirstList dat repl s)

/-- The main pipeline of `res` on a found template (Lang.ts 546-592): token
substitution, then the script loop (a no-op when there is no script match,
exactly as the `test` guard of line 557 arranges), then the optional-marker
cleanup and the newline unescape. -/
def resCore (o : ScriptOracle) (lang key : String) (data : List (String × String))
    (tmpl : String) : Except String String :=
  match runScripts o lang key (scriptMatches (substituteTokens data tmpl.data))
      (substituteTokens data tmpl.data) with
  | .error e => .error e
  | .ok s2 => .ok (String.mk (unescapeNewlines (stripMaybes s2)))

/-- `Lang.res` (Lang.ts 535-593) for a created singleton.  An unknown language,
an absent key and an empty stored template (all falsy guards of lines 537 and
543) return the sentinel `lang::key`.  The dead `typeof data === 'undefined'`
branch of line 544 is unreachable through the default parameter `data = {}` and
is not modelled; `data` is always a bag here. -/
def res (langs : List (String × Language)) (o : ScriptOracle) (lang key : String)
    (data : List (String × String)) : Except String String :=
  match jsGet langs lang with
  | none => .ok (lang ++ "::" ++ key)
  | some l =>
    match jsGet l.strings key with
    | none => .ok (lang ++ "::" ++ key)
    | some tmpl =>
      if tmpl == "" then .ok (lang ++ "::" ++ key)
      else resCore o lang key data tmpl

/-! ## Association-list lemmas -/

theorem jsGet_singleton {α : Type} (k : String) (v : α) :
    jsGet [(k, v)] k = some v := by
  simp [jsGet, List.find?]

theorem jsGet_cons {α : Type} (p : String × α) (m : List (String × α)) (k : String) :
    jsGet (p :: m) k = if p.1 = k then some p.2 else jsGet m k := by
  by_cases h : p.1 = k
  · rw [jsGet, List.find?_cons_of_pos _ (by simp [h]), if_pos h]
    rfl
  · rw [jsGet, List.find?_cons_of_neg _ (by simp [h]), if_neg h]
    rfl

theorem jsGet_map_overwrite {α : Type} (m : List (String × α)) (k k' : String)
    (v : α) (hne : k ≠ k') :
    jsGet (m.map (fun p => if p.1 == k then (k, v) else p)) k' = jsGet m k' := by
  induction m with
  | nil => rfl
  | cons p ps ih =>
    rw [List.map_cons]
    by_cases hk : p.1 = k
    · have h1 : ((if p.1 == k then (k, v) else p) : String × α) = (k, v) := by
        simp [hk]
      rw [h1, jsGet_cons, jsGet_cons, ih, if_neg hne, if_neg (hk ▸ hne)]
    · have h1 : ((if p.1 == k then (k, v) else p) : String × α) = p := by
        simp [hk]
      rw [h1, jsGet_cons, jsGet_cons, ih]

theorem jsGet_map_overwrite_self {α : Type} (m : List (String × α)) (k : String)
    (v : α) (hmem : ((m.find? (fun p => p.1 == k)).isSome) = true) :
    jsGet (m.map (fun p => if p.1 == k then (k, v) else p)) k = some v := by
  induction m with
  | nil => simp [List.find?] at hmem
  | cons p ps ih =>
    rw [List.map_cons]
    by_cases hk : p.1 = k
    · have h1 : ((if p.1 == k then (k, v) else p) : String × α) = (k, v) := by
        simp [hk]
      rw [h1, jsGet_cons, if_pos rfl]
    · have h1 : ((if p.1 == k then (k, v) else p) : String × α) = p := by
        simp [hk]
      have hmem' : ((ps.find? (fun p => p.1 == k)).isSome) = true := by
        rwa [List.find?_cons_of_neg _ (by simp [hk])] at hmem
      rw [h1, jsGet_cons, if_neg hk, ih hmem']

theorem jsGet_append {α : Type} (m₁ m₂ : List (String × α)) (k : String) :
    jsGet (m₁ ++ m₂) k =
      match jsGet m₁ k with
      | some v => some v
      | none => jsGet m₂ k := by
  induction m₁ with
  | nil => simp [jsGet]
  | cons p ps ih =>
    rw [List.cons_append, jsGet_cons, jsGet_cons]
    by_cases h : p.1 = k
    · simp [h]
    · simp [h, ih]

theorem jsGet_jsSet {α : Type} (m : List (String × α)) (k k' : String) (v : α) :
    jsGet (jsSet m k v) k' = if k = k' then some v else jsGet m k' := by
  unfold jsSet
  by_cases hp : ((m.find? (fun p => p.1 == k)).isSome) = true
  · rw [if_pos hp]
    by_cases he : k = k'
    · subst he
      rw [jsGet_map_overwrite_self m k v hp, if_pos rfl]
    · rw [jsGet_map_overwrite m k k' v he, if_neg he]
  · rw [if_neg hp, jsGet_append]
    by_cases he : k = k'
    · subst he
      have hnone : jsGet m k = none := by
        unfold jsGet
        rcases hf : m.find? (fun p => p.1 == k) with _ | w
        · rw [hf]
          rfl
        · rw [hf] at hp; simp at hp
      rw [hnone, if_pos rfl]
      exact jsGet_singleton k v
    · cases hg : jsGet m k' with
      | none =>
        have hnone : jsGet [(k, v)] k' = none := by
          rw [jsGet_cons, if_neg he]
          rfl
        simp [hnone, he]
      | some w => simp [he]

theorem jsGet_eq_none_of_not_mem {α : Type} (m : List (String × α)) (k : String)
    (h : k ∉ m.map Prod.fst) : jsGet m k = none := by
  induction m with
  | nil => rfl
  | cons p ps ih =>
    simp only [List.map_cons, List.mem_cons, not_or] at h
    rw [jsGet_cons, if_neg (fun he => h.1 he.symm)]
    exact ih h.2

theorem jsGet_jsSpread {α : Type} (a b : List (String × α)) (k : String)
    (hnodup : (b.map Prod.fst).Nodup) :
    jsGet (jsSpread a b) k =
      match jsGet b k with
      | some v => some v
      | none => jsGet a k := by
  induction b generalizing a with
  | nil => simp [jsSpread, jsGet]
  | cons p ps ih =>
    simp only [List.map_cons, List.nodup_cons] at hnodup
    have step : jsSpread a (p :: ps) = jsSpread (jsSet a p.1 p.2) ps := rfl
    rw [step, ih (jsSet a p.1 p.2) hnodup.2, jsGet_cons]
    by_cases he : p.1 = k
    · subst he
      have hnone : jsGet ps p.1 = none :=
        jsGet_eq_none_of_not_mem ps p.1 hnodup.1
      rw [hnone, if_pos rfl, jsGet_jsSet, if_pos rfl]
    · cases hg : jsGet ps k with
      | none => rw [jsGet_jsSet, if_neg he, if_neg he]
      | some w => rw [if_neg he]

/-! ## Shared concrete fixtures -/

/-- An inert script oracle for resolutions that reach no script block. -/
def oracleNone : ScriptOracle := fun _ => .returns none

/-! ## Claim theorems -/

/-- C1: for every language identifier and key, if the language has no entry in
the store, or the language's table has no entry for the key, `res` returns
exactly the sentinel `"<lang>::<key>"` and does not throw (the result is `ok`,
never `error`). -/
theorem c1_lookup_miss_returns_sentinel (langs : List (String × Language))
    (o : ScriptOracle) (lang key : String) (data : List (String × String))
    (h : ∀ L, jsGet langs lang = some L → jsGet L.strings key = none) :
    res langs o lang key data = .ok (lang ++ "::" ++ key) := by
  unfold res
  cases hL : jsGet langs lang with
  | none => rfl
  | some L => simp [h L hL]

/-- Witness for C1 at a store without the language `de`. -/
theorem c1_witness :
    res [] oracleNone "de" "greeting" [] = .ok "de::greeting" :=
  c1_lookup_miss_returns_sentinel [] oracleNone "de" "greeting" []
    (by intro L hL; simp [jsGet] at hL)

/-- C10: a key that is present in a known language's table but whose stored
template is the empty string resolves to the sentinel `"<lang>::<key>"`, just
as an absent key does (the `!loadedString` guard treats `""` as a miss). -/
theorem c10_empty_template_returns_sentinel (langs : List (String × Language))
    (o : ScriptOracle) (lang key : String) (data : List (String × String))
    (L : Language) (h1 : jsGet langs lang = some L)
    (h2 : jsGet L.strings key = some "") :
    res langs o lang key data = .ok (lang ++ "::" ++ key) := by
  unfold res
  rw [h1]
  simp [h2]

/-- Witness for C10 at a store holding an empty template under `en_us::empty`. -/
theorem c10_witness :
    res [("en_us", { name := "en_us", strings := [("empty", "")] })]
      oracleNone "en_us" "empty" [] = .ok "en_us::empty" :=
  c10_empty_template_returns_sentinel _ oracleNone "en_us" "empty" [] _
    (jsGet_singleton _ _) (jsGet_singleton _ _)

/-- The per-field fallback rule stated by the claim for `getCommandInfo`:
the localized value when present and non-empty, else the default. -/
def pickNonempty (v : Option String) (d : String) : String :=
  match v with
  | some s => if s ≠ "" then s else d
  | none => d

theorem jsOr_eq_pickNonempty (v : Option String) (d : String) :
    jsOr v d = pickNonempty v d := by
  cases v with
  | none => rfl
  | some s =>
    by_cases h : s = ""
    · simp [jsOr, pickNonempty, h]
    · simp [jsOr, pickNonempty, h]

/-- C6: `getCommandInfo` returns, for each of desc/info/usage, the localized
value for `(command.name, lang)` when present and non-empty and the command's
own compiled-in default otherwise; with no localization entry for the language
it returns exactly the command's compiled defaults. -/
theorem c6_command_info_per_field_fallback (ci : CommandInfoTable)
    (cmd : CommandData) (lang : String) :
    getCommandInfo ci cmd lang =
      { desc := pickNonempty ((getNested2 ci cmd.name lang).bind (fun e => e.desc)) cmd.desc
      , info := pickNonempty ((getNested2 ci cmd.name lang).bind (fun e => e.info)) cmd.info
      , usage := pickNonempty ((getNested2 ci cmd.name lang).bind (fun e => e.usage)) cmd.usage }
    ∧ (getNested2 ci cmd.name lang = none →
        getCommandInfo ci cmd lang =
          { desc := cmd.desc, info := cmd.info, usage := cmd.usage }) := by
  constructor
  · simp [getCommandInfo, jsOr_eq_pickNonempty]
  · intro h
    simp [getCommandInfo, h, jsOr]

/-- Witness for C6: a command with defaults `{desc D, info I, usage U}` and an
empty localization store returns exactly those defaults for `fr`. -/
theorem c6_witness :
    getCommandInfo [] { name := "ping", desc := "D", info := "I", usage := "U" } "fr"
      = { desc := "D", info := "I", usage := "U" } :=
  (c6_command_info_per_field_fallback []
    { name := "ping", desc := "D", info := "I", usage := "U" } "fr").2 rfl

/-- Counterexample for C7: with an instance already present, the public
construction step `createInstance` returns without any error and with the
existing instance unchanged — the repeated construction attempt is silently
ignored rather than failing with a surfaced error. -/
theorem c7_counterexample :
    createInstance (some (LangInstance.fresh 1)) 2 = .ok (some (LangInstance.fresh 1)) := rfl

/-- C7 (amended): a direct constructor invocation with an instance present
throws the singleton error, and the public `createInstance` with an instance
present is a silent no-op — in either path the existing instance's state is
never replaced, but `createInstance` surfaces no error. -/
theorem c7_repeat_construction (i : LangInstance) (c : Nat) :
    langConstructor (some i) c =
      .error "Cannot create multiple instances of Lang singleton. Use Lang.createInstance() instead"
    ∧ createInstance (some i) c = .ok (some i) :=
  ⟨rfl, rfl⟩

/-- C5: after merging two parsed resource-file fragments for one language in
discovery order, the language's entry is the concat of the two fragments; a key
defined in both fragments maps to the value of the fragment merged last, and
the merged key set is the union of the fragments' key sets.  (`Language.concat`
is modelled from the spec, `Language.ts` not being among the sources.) -/
theorem c5_last_file_wins_union (langName : String) (f1 f2 : Language)
    (K K' v1 v2 : String)
    (h1 : jsGet f1.strings K = some v1) (h2 : jsGet f2.strings K = some v2)
    (hnodup : (f2.strings.map Prod.fst).Nodup) :
    jsGet (loadParsedLanguageFiles [] langName [f1, f2]) langName
        = some (f1.concat f2)
    ∧ jsGet (f1.concat f2).strings K = some v2
    ∧ ((jsGet (f1.concat f2).strings K').isSome
        ↔ ((jsGet f1.strings K').isSome ∨ (jsGet f2.strings K').isSome)) := by
  refine ⟨?_, ?_, ?_⟩
  · have e1 : loadParsedLanguageFiles [] langName [f1, f2]
        = mergeParsedLanguage [(langName, f1)] langName f2 := rfl
    rw [e1]
    unfold mergeParsedLanguage
    rw [jsGet_singleton]
    rw [jsGet_jsSet, if_pos rfl]
  · show jsGet (jsSpread f1.strings f2.strings) K = some v2
    rw [jsGet_jsSpread _ _ _ hnodup, h2]
  · show (jsGet (jsSpread f1.strings f2.strings) K').isSome = true ↔ _
    rw [jsGet_jsSpread _ _ _ hnodup]
    cases hg : jsGet f2.strings K' with
    | none => simp
    | some w => simp

/-- Witness for C5 on two concrete fragments sharing the key `K`. -/
theorem c5_witness :
    jsGet (loadParsedLanguageFiles [] "aa"
        [{ name := "aa", strings := [("K", "v1"), ("A", "x")] },
         { name := "aa", strings := [("K", "v2"), ("B", "y")] }]) "aa"
      = some (Language.concat { name := "aa", strings := [("K", "v1"), ("A", "x")] }
          { name := "aa", strings := [("K", "v2"), ("B", "y")] })
    ∧ jsGet (Language.concat { name := "aa", strings := [("K", "v1"), ("A", "x")] }
          { name := "aa", strings := [("K", "v2"), ("B", "y")] }).strings "K" = some "v2"
    ∧ ((jsGet (Language.concat { name := "aa", strings := [("K", "v1"), ("A", "x")] }
          { name := "aa", strings := [("K", "v2"), ("B", "y")] }).strings "B").isSome
        ↔ ((jsGet [("K", "v1"), ("A", "x")] "B").isSome
            ∨ (jsGet [("K", "v2"), ("B", "y")] "B").isSome)) :=
  c5_last_file_wins_union "aa" _ _ "K" "B" "v1" "v2" rfl rfl (by decide)

/-- A discovered command-help file that is kept by the loader: not the reserved
group file, and parsed without error. -/
def goodCommandLocFile (f : CommandLocFile) : Bool :=
  !isGroupsFile f.name &&
    (match f.parsed with
     | .ok _ => true
     | .error _ => false)

/-- Counterexample for C8: a parse failure of the reserved
`commandgroups.lang.json` during group-description loading does not merely skip
the file — the load call aborts with a thrown (wrapped) error. -/
theorem c8_counterexample :
    loadGroupLocalizationsFrom []
      [{ name := "base/commandgroups.lang.json",
         parsed := .error "SyntaxError: Unexpected token" }]
      = .error "Failed to load group localizations from: base/commandgroups.lang.json\nSyntaxError: Unexpected token" := rfl

/-- C8 (amended): during command-help loading a parse failure is isolated per
file — the result is as if exactly the well-parsed, non-reserved files had been
loaded, so the loader continues and keeps every other file's entries; during
group-description loading, however, a parse failure of the (single considered)
reserved file aborts that call with a wrapped error. -/
theorem c8_parse_failure_isolation :
    (∀ (ci : CommandInfoTable) (files : List CommandLocFile),
      loadCommandLocalizationsFrom ci files
        = loadCommandLocalizationsFrom ci (files.filter goodCommandLocFile))
    ∧ (∀ (gi : GroupInfoTable) (files : List GroupLocFile) (f : GroupLocFile)
        (e : String),
        files.find? (fun f => isGroupsFile f.name) = some f →
        f.parsed = .error e →
        loadGroupLocalizationsFrom gi files
          = .error ("Failed to load group localizations from: " ++ f.name ++ "\n" ++ e)) := by
  constructor
  · intro ci files
    have stepeq : ∀ (ci : CommandInfoTable) (f : CommandLocFile)
        (fs : List CommandLocFile),
        loadCommandLocalizationsFrom ci (f :: fs)
          = loadCommandLocalizationsFrom
              (if isGroupsFile f.name then ci
               else
                 match f.parsed with
                 | .error _ => ci
                 | .ok payload => mergeCommandPayload ci payload) fs :=
      fun _ _ _ => rfl
    induction files generalizing ci with
    | nil => rfl
    | cons f fs ih =>
      rw [stepeq, List.filter_cons]
      by_cases hg : isGroupsFile f.name = true
      · have hgood : goodCommandLocFile f = false := by
          unfold goodCommandLocFile
          rw [hg]
          rfl
        rw [if_pos hg, hgood]
        simpa using ih ci
      · cases hp : f.parsed with
        | error e =>
          have hgood : goodCommandLocFile f = false := by
            unfold goodCommandLocFile
            rw [hp]
            simp
          rw [if_neg hg, hgood]
          simpa using ih ci
        | ok payload =>
          have hgf : isGroupsFile f.name = false := by
            cases h : isGroupsFile f.name
            · rfl
            · exact absurd h hg
          have hgood : goodCommandLocFile f = true := by
            unfold goodCommandLocFile
            rw [hp, hgf]
            rfl
          rw [if_neg hg, hgood]
          have rhsstep : loadCommandLocalizationsFrom ci
              (if true = true then f :: List.filter goodCommandLocFile fs
               else List.filter goodCommandLocFile fs)
              = loadCommandLocalizationsFrom
                  (if isGroupsFile f.name then ci
                   else
                     match f.parsed with
                     | .error _ => ci
                     | .ok payload => mergeCommandPayload ci payload)
                  (List.filter goodCommandLocFile fs) := by
            rw [if_pos rfl]
            exact stepeq ci f (List.filter goodCommandLocFile fs)
          rw [rhsstep, if_neg hg, hp]
          exact ih (mergeCommandPayload ci payload)
  · intro gi files f e h1 h2
    unfold loadGroupLocalizationsFrom
    rw [h1]
    simp [h2]

/-- Witness for C8 applying both halves at concrete inputs: one skipped broken
help file among good ones, and one broken reserved group file. -/
theorem c8_witness :
    loadCommandLocalizationsFrom []
      [{ name := "a.lang.json", parsed := .error "SyntaxError" },
       { name := "b.lang.json",
         parsed := .ok [("ping", [("fr", { desc := some "Dfr", info := none, usage := none })])] }]
      = loadCommandLocalizationsFrom []
          (List.filter goodCommandLocFile
            [{ name := "a.lang.json", parsed := .error "SyntaxError" },
             { name := "b.lang.json",
               parsed := .ok [("ping", [("fr", { desc := some "Dfr", info := none, usage := none })])] }])
    ∧ loadGroupLocalizationsFrom []
        [{ name := "x/commandgroups.lang.json", parsed := .error "bad json" }]
        = .error ("Failed to load group localizations from: x/commandgroups.lang.json\nbad json") :=
  ⟨c8_parse_failure_isolation.1 [] _,
   c8_parse_failure_isolation.2 []
     [{ name := "x/commandgroups.lang.json", parsed := .error "bad json" }]
     { name := "x/commandgroups.lang.json", parsed := .error "bad json" }
     "bad json" rfl rfl⟩

set_option maxRecDepth 4000 in
/-- Counterexample for C3: the template `"Score: {{ score?}}\n"` resolved with
no `score` value keeps its line — only the optional marker itself is removed,
giving `"Score: \n"`, not the line-removed empty result the claim states. -/
theorem c3_counterexample :
    res [("en_us", { name := "en_us", strings := [("score", "Score: {{ score?}}\n")] })]
      oracleNone "en_us" "score" [] = .ok "Score: \n"
    ∧ ("Score: \n" : String) ≠ "" := by
  refine ⟨rfl, by decide⟩

set_option maxRecDepth 8000 in
/-- C3 (amended): with `score` absent or empty only the optional marker itself
is removed (the rest of the line and its newline remain); whole-line removal
happens only when the marker starts its line; with `score = "10"` the result is
`"Score: 10\n"`. -/
theorem c3_optional_token_resolution :
    res [("en_us", { name := "en_us", strings := [("score", "Score: {{ score?}}\n")] })]
      oracleNone "en_us" "score" [] = .ok "Score: \n"
    ∧ res [("en_us", { name := "en_us", strings := [("score", "Score: {{ score?}}\n")] })]
        oracleNone "en_us" "score" [("score", "")] = .ok "Score: \n"
    ∧ res [("en_us", { name := "en_us", strings := [("score", "Score: {{ score?}}\n")] })]
        oracleNone "en_us" "score" [("score", "10")] = .ok "Score: 10\n"
    ∧ res [("en_us", { name := "en_us", strings := [("line", "{{ score?}}\n")] })]
        oracleNone "en_us" "line" [] = .ok "" := by
  exact ⟨rfl, rfl, rfl, rfl⟩

/-- Oracle for the C2 counterexample: the direct evaluation of `g()` returns
`undefined` without fault, but the implicit-return retry `return g()` raises a
runtime fault. -/
def c2CexOracle : ScriptOracle := fun b =>
  if b == "g()" then .returns none
  else if b == "return g()" then .runtimeError "Error: boom"
  else .returns (some "unused")

set_option maxRecDepth 4000 in
/-- Counterexample for C2: a runtime fault raised during the implicit-return
retry is silently swallowed by the empty `catch` — the resolution succeeds
(with the block degraded to "undefined") instead of failing with a described
error. -/
theorem c2_counterexample :
    c2CexOracle "return g()" = .runtimeError "Error: boom"
    ∧ res [("en_us", { name := "en_us", strings := [("t", "{{!g()!}}")] })]
        c2CexOracle "en_us" "t" [] = .ok "undefined" :=
  ⟨rfl, rfl⟩

/-- C2 (amended): a runtime fault during the direct evaluation attempt fails
the resolution with an error message identifying the offending language and
key; a fault during the implicit-return retry, however, is silently caught and
the block degrades, the resolution succeeding. -/
theorem c2_script_fault_handling (lang key : String) (o : ScriptOracle)
    (m m' : String)
    (h1 : o "f()" = .runtimeError m)
    (h2 : o "g()" = .returns none)
    (h3 : o "return g()" = .runtimeError m') :
    res [(lang, { name := lang, strings := [(key, "{{!f()!}}")] })] o lang key []
      = .error ("in embedded localization script for: " ++ lang ++ "::" ++ key ++ "\n" ++ m)
    ∧ res [(lang, { name := lang, strings := [(key, "{{!g()!}}")] })] o lang key []
      = .ok "undefined" := by
  constructor
  · simp only [res, jsGet_singleton]
    rw [if_neg (by decide)]
    unfold resCore substituteTokens
    rw [List.foldl_nil,
      show scriptMatches ("{{!f()!}}".data) = [("{{!f()!}}".data)] from rfl]
    unfold runScripts
    rw [show extractFunctionBody ("{{!f()!}}".data) = "f()".data from rfl]
    unfold evalScriptBlock
    rw [show String.mk ("f()".data) = "f()" from rfl, h1]
  · simp only [res, jsGet_singleton]
    rw [if_neg (by decide)]
    unfold resCore substituteTokens
    rw [List.foldl_nil,
      show scriptMatches ("{{!g()!}}".data) = [("{{!g()!}}".data)] from rfl]
    unfold runScripts
    rw [show extractFunctionBody ("{{!g()!}}".data) = "g()".data from rfl]
    unfold evalScriptBlock
    rw [show String.mk ("g()".data) = "g()" from rfl, h2]
    rw [show ("return " ++ String.mk (("g()".data).dropWhile isJsWhitespace))
        = "return g()" from rfl, h3]
    rfl

/-- Oracle witnessing C2's amended statement concretely. -/
def c2WitnessOracle : ScriptOracle := fun b =>
  if b == "f()" then .runtimeError "Error: boom"
  else if b == "g()" then .returns none
  else if b == "return g()" then .runtimeError "Error: late boom"
  else .returns none

/-- Witness for C2's amended statement at a concrete language, key and oracle. -/
theorem c2_witness :
    res [("en_us", { name := "en_us", strings := [("t", "{{!f()!}}")] })]
      c2WitnessOracle "en_us" "t" []
      = .error ("in embedded localization script for: " ++ "en_us" ++ "::" ++ "t" ++ "\n" ++ "Error: boom")
    ∧ res [("en_us", { name := "en_us", strings := [("t", "{{!g()!}}")] })]
        c2WitnessOracle "en_us" "t" [] = .ok "undefined" :=
  c2_script_fault_handling "en_us" "t" c2WitnessOracle "Error: boom" "Error: late boom"
    rfl rfl rfl

set_option maxRecDepth 4000 in
/-- Counterexample for C4: a script block producing no result in either
evaluation attempt is replaced by the string "undefined" (the stringified
missing value), not by the empty string the claim states. -/
theorem c4_counterexample :
    res [("en_us", { name := "en_us", strings := [("t", "A {{!x()!}} B")] })]
      oracleNone "en_us" "t" [] = .ok "A undefined B"
    ∧ ("A undefined B" : String) ≠ "A  B" :=
  ⟨rfl, by decide⟩

/-- C4 (amended): when both evaluation attempts of a script block complete
without fault but produce no result value, the block's textual span is replaced
by the string "undefined" (JavaScript's stringification of the missing value),
and the resolution as a whole still succeeds. -/
theorem c4_valueless_block_degrades (lang key : String) (o : ScriptOracle)
    (h1 : o "x()" = .returns none)
    (h2 : o "return x()" = .returns none) :
    res [(lang, { name := lang, strings := [(key, "A {{!x()!}} B")] })] o lang key []
      = .ok "A undefined B" := by
  simp only [res, jsGet_singleton]
  rw [if_neg (by decide)]
  unfold resCore substituteTokens
  rw [List.foldl_nil,
    show scriptMatches ("A {{!x()!}} B".data) = [("{{!x()!}}".data)] from rfl]
  unfold runScripts
  rw [show extractFunctionBody ("{{!x()!}}".data) = "x()".data from rfl]
  unfold evalScriptBlock
  rw [show String.mk ("x()".data) = "x()" from rfl, h1]
  rw [show ("return " ++ String.mk (("x()".data).dropWhile isJsWhitespace))
      = "return x()" from rfl, h2]
  rfl

/-- Witness for C4's amended statement with the inert oracle. -/
theorem c4_witness :
    res [("en_us", { name := "en_us", strings := [("t", "A {{!x()!}} B")] })]
      oracleNone "en_us" "t" [] = .ok "A undefined B" :=
  c4_valueless_block_degrades "en_us" "t" oracleNone rfl rfl

/-- Oracle for C9: only the merged body text spanning both blocks raises the
syntax error (as `new Function` would); each individual block's body would
evaluate fine, so an error result can only come from the merged evaluation. -/
def c9Oracle : ScriptOracle := fun b =>
  if b == "return 1!\x7d\x7d B \x7b\x7b!return 2" then .syntaxError "SyntaxError: Unexpected token"
  else .returns (some "ok")

set_option maxRecDepth 4000 in
/-- C9: with two script blocks in one template, the greedy `([\s\S]+)` makes
the scan produce a single match spanning from the first `{{!` to the last
`!}}`; the extracted function body is the merged text of both blocks and the
glue between them, and `res` performs one evaluation of that merged body (here
an unwrapped syntax error) instead of evaluating each block separately. -/
theorem c9_greedy_merges_blocks :
    scriptMatches ("A {{!return 1!}} B {{!return 2!}} C".data)
      = [("{{!return 1!}} B {{!return 2!}}".data)]
    ∧ extractFunctionBody ("{{!return 1!}} B {{!return 2!}}".data)
      = ("return 1!\x7d\x7d B \x7b\x7b!return 2".data)
    ∧ res
        [("en_us",
          { name := "en_us",
            strings := [("two", "A {{!return 1!}} B {{!return 2!}} C")] })]
        c9Oracle "en_us" "two" [] = .error "SyntaxError: Unexpected token" :=
  ⟨rfl, rfl, rfl⟩

end Yamdbf
